import Mathlib

/-!
Verification development for the Anchor container runtime (anchor_run.py).

The Python source performs filesystem and syscall side effects.  We embed it
shallowly: every side-effecting step is recorded as an `Event` in a trace, and
the parts of the world state the code inspects (which paths exist, the content
of tar archives, the ledger file) are carried in an explicit `FS` record.
Pure path manipulation (os.path.join / normpath / abspath / commonprefix) is
translated from CPython's posixpath module, which the source calls.
-/

/-- Python str.startswith, on the character lists (kernel-computable). -/
def strStartsWith (s pre : String) : Bool :=
  pre.data.isPrefixOf s.data

/-- Python str.endswith, on the character lists. -/
def strEndsWith (s suf : String) : Bool :=
  suf.data.isSuffixOf s.data

/-- Drop the first n characters. -/
def strDropLeft (s : String) (n : Nat) : String :=
  String.mk (s.data.drop n)

/-- Python str.strip(): remove whitespace from both ends. -/
def strTrim (s : String) : String :=
  String.mk (((s.data.dropWhile Char.isWhitespace).reverse.dropWhile
      Char.isWhitespace).reverse)

/-- str.split with a one-character separator (as used by the source for "/"
and ":"), on character lists. -/
def splitListOn (c : Char) (l : List Char) : List (List Char) :=
  l.foldr
    (fun x acc =>
      if x = c then [] :: acc
      else
        match acc with
        | [] => [[x]]
        | h :: t => (x :: h) :: t)
    [[]]

def strSplitOnChar (s : String) (c : Char) : List String :=
  (splitListOn c s.data).map (fun l => String.mk l)

/-- One component step of posixpath.join: `join(path, b)`. -/
def osPathJoin1 (path b : String) : String :=
  if strStartsWith b "/" then b
  else if path = "" ∨ strEndsWith path "/" then path ++ b
  else path ++ "/" ++ b

/-- posixpath.join of a base path and further components (left fold, as in CPython). -/
def osPathJoin (a : String) (ps : List String) : String :=
  ps.foldl osPathJoin1 a

/-- The component-normalisation loop of posixpath.normpath. -/
def normComps (initialSlashes : Nat) (comps : List String) : List String :=
  comps.foldl
    (fun acc comp =>
      if comp = "" ∨ comp = "." then acc
      else if comp ≠ ".." then acc ++ [comp]
      else if initialSlashes = 0 ∧ acc = [] then acc ++ [comp]
      else if acc.getLast? = some ".." then acc ++ [comp]
      else if acc ≠ [] then acc.dropLast
      else acc)
    []

/-- posixpath.normpath: collapse `.`, empty components and `..` textually. -/
def osPathNormpath (path : String) : String :=
  if path = "" then "."
  else
    let initialSlashes : Nat :=
      if strStartsWith path "/" then
        if strStartsWith path "//" ∧ ¬ strStartsWith path "///" then 2 else 1
      else 0
    let comps := strSplitOnChar path '/' 
    let joined := String.intercalate "/" (normComps initialSlashes comps)
    let res := String.mk (List.replicate initialSlashes '/') ++ joined
    if res = "" then "." else res

/-- posixpath.abspath relative to an explicit current working directory. -/
def osPathAbspath (cwd path : String) : String :=
  let p := if strStartsWith path "/" then path else osPathJoin cwd [path]
  osPathNormpath p

/-- Longest common character run of two character lists. -/
def lcpChars : List Char → List Char → List Char
  | a :: as, b :: bs => if a = b then a :: lcpChars as bs else []
  | _, _ => []

/-- os.path.commonprefix: the longest common string prefix of the given paths
(character-wise, not component-wise — this is the crux of claim C1). -/
def commonPfx : List String → String
  | [] => ""
  | s :: rest => String.mk (rest.foldl (fun acc t => lcpChars acc t.data) s.data)

/-- Python str.strip over the single character newline (both ends). -/
def stripNl (s : String) : String :=
  String.mk (((s.data.dropWhile (fun c => c = '\n')).reverse.dropWhile
      (fun c => c = '\n')).reverse)

/-- Decimal value of a digit list. -/
def digitsToNat (cs : List Char) : Nat :=
  cs.foldl (fun a c => a * 10 + (c.toNat - 48)) 0

/-- Python int() on a decimal string: optional surrounding whitespace, optional
sign, then a non-empty run of digits.  `none` models ValueError. -/
def pyInt (s : String) : Option Int :=
  let t := strTrim s
  let sign : Int := if strStartsWith t "-" then -1 else 1
  let rest := if strStartsWith t "-" ∨ strStartsWith t "+" then strDropLeft t 1 else t
  if rest.length ≠ 0 ∧ rest.data.all (fun c => c.isDigit) then
    some (sign * (digitsToNat rest.data : Int))
  else none

/-- Tar member kinds; the source only distinguishes CHRTYPE and BLKTYPE. -/
inductive TarType where
  | reg | dir | chr | blk | sym | lnk | fifo
deriving DecidableEq, Repr

/-- A member of a tar archive: its stored name and kind. -/
structure TarMember where
  name : String
  type : TarType
deriving DecidableEq, Repr

/-- Errors raised by the modelled code. -/
inductive Err where
  | assertionError (msg : String)
  | exception (msg : String)
  | valueError (msg : String)
  | overflowError (msg : String)
  | fileExistsError (path : String)
  | indexError (msg : String)
deriving DecidableEq, Repr

/-- The syscall / filesystem events the source can perform, in program order. -/
inductive Event where
  | makedirs (p : String)
  | openTar (p : String)
  | extractAll (dest : String) (memberNames : List String)
  | mount (src : Option String) (target : String) (fstype : Option String)
      (flags : Nat) (data : Option String)
  | writeFile (p : String) (content : String)
  | sethostname (n : String)
  | pivotRoot (newRoot putOld : String)
  | chdir (p : String)
  | umount2 (target : String) (flags : Nat)
  | rmdir (p : String)
  | symlink (src dst : String)
  | mknod (p : String) (mode : Nat) (major minor : Nat)
  | setgid (g : Int)
  | setuid (u : Int)
  | execvp (file : String) (argv : List String)
  | clone (flags : Nat)
  | waitpid (pid status : Nat)
  | ledgerAppend (line : String)
  | ledgerRewrite (lines : List String)
deriving DecidableEq, Repr

/-- The world state the source inspects: which paths exist, what each tar file
contains, the working directory, and the lines of containers.txt. -/
structure FS where
  existing : List String
  tars : String → List TarMember
  cwd : String
  ledger : List String

/-- os.path.exists against the modelled state. -/
def pathExists (fs : FS) (p : String) : Bool :=
  fs.existing.contains p

/-- Record that a path now exists (effect of os.makedirs). -/
def FS.addPath (fs : FS) (p : String) : FS :=
  { fs with existing := fs.existing ++ [p] }

/-! Constants of the `linux` syscall-binding module.  Modelled from the spec:
the repository's `linux` extension module is imported by anchor_run.py but is
not under src/; the spec (§4.1) lists exactly these flag names, whose numeric
values are the standard Linux ABI values. -/

def linux.MS_NOSUID : Nat := 2
def linux.MS_NODEV : Nat := 4
def linux.MS_REC : Nat := 16384
def linux.MS_PRIVATE : Nat := 262144
def linux.MS_STRICTATIME : Nat := 16777216
def linux.MNT_DETACH : Nat := 2
def linux.CLONE_NEWNS : Nat := 131072
def linux.CLONE_NEWUTS : Nat := 67108864
def linux.CLONE_NEWPID : Nat := 536870912
def linux.CLONE_NEWNET : Nat := 1073741824

/-- stat.S_IFCHR. -/
def S_IFCHR : Nat := 8192

/-- anchor_run._get_image_path (the call sites use the default suffix "tar"). -/
def _get_image_path (image_name image_dir image_suffix : String) : String :=
  osPathJoin image_dir [image_name ++ "." ++ image_suffix]

/-- anchor_run._get_container_path. -/
def _get_container_path (container_id container_dir : String)
    (subdir_names : List String) : String :=
  osPathJoin container_dir ([container_id] ++ subdir_names)

/-- is_within_directory from create_container_root: a commonprefix-based
containment test on absolute paths. -/
def is_within_directory (cwd directory target : String) : Bool :=
  let abs_directory := osPathAbspath cwd directory
  let abs_target := osPathAbspath cwd target
  commonPfx [abs_directory, abs_target] == abs_directory

/-- safe_extract from create_container_root: check every member of the archive
with is_within_directory, then extractall the (pre-filtered) members. -/
def safe_extract (cwd : String) (tar : List TarMember) (path : String)
    (members : List TarMember) : List Event × Except Err Unit :=
  if tar.all (fun m => is_within_directory cwd path (osPathJoin path [m.name])) then
    ([Event.extractAll path (members.map (fun m => m.name))], Except.ok ())
  else
    ([], Except.error (Err.exception "Attempted Path Traversal in Tar File"))

/-- The overlay mount performed at the end of create_container_root. -/
def overlayMountEv (image_root container_rootfs upper work : String) : Event :=
  Event.mount (some "overlay") container_rootfs (some "overlay") linux.MS_NODEV
    (some ("lowerdir=" ++ image_root ++ ",upperdir=" ++ upper ++ ",workdir=" ++ work))

/-- The per-directory creation step of create_container_root's loop over
(cow_upperdir, cow_workdir, rootfs). -/
def mkdirStep (acc : List Event × FS) (d : String) : List Event × FS :=
  if pathExists acc.2 d = true then acc
  else (acc.1 ++ [Event.makedirs d], acc.2.addPath d)

/-- Tail of create_container_root after the extraction block: create the three
container workspace directories as needed and mount the overlay. -/
def ccrTail (image_root container_id container_dir : String) (evs1 : List Event)
    (fs1 : FS) : List Event × Except Err (String × FS) :=
  let container_cow_upperdir := _get_container_path container_id container_dir ["cow_upperdir"]
  let container_cow_workdir := _get_container_path container_id container_dir ["cow_workdir"]
  let container_rootfs := _get_container_path container_id container_dir ["rootfs"]
  let st := [container_cow_upperdir, container_cow_workdir, container_rootfs].foldl mkdirStep ([], fs1)
  (evs1 ++ st.1 ++ [overlayMountEv image_root container_rootfs container_cow_upperdir container_cow_workdir],
   Except.ok (container_rootfs, st.2))

/-- anchor_run.create_container_root: locate the tarball, extract it once into
image_dir/image_name/rootfs guarded by safe_extract, create the container's
cow/work/rootfs directories, and mount the overlay. -/
def create_container_root (image_name image_dir container_id container_dir : String)
    (fs : FS) : List Event × Except Err (String × FS) :=
  let image_path := _get_image_path image_name image_dir "tar"
  let image_root := osPathJoin image_dir [image_name, "rootfs"]
  if pathExists fs image_path = false then
    ([], Except.error (Err.assertionError ("unable to locate image " ++ image_name)))
  else if pathExists fs image_root = true then
    ccrTail image_root container_id container_dir [] fs
  else
    let tar := fs.tars image_path
    let members := tar.filter (fun m => !(m.type == TarType.chr || m.type == TarType.blk))
    let se := safe_extract fs.cwd tar image_root members
    let evs1 := [Event.makedirs image_root, Event.openTar image_path] ++ se.1
    match se.2 with
    | Except.error e => (evs1, Except.error e)
    | Except.ok _ => ccrTail image_root container_id container_dir evs1 (fs.addPath image_root)

/-- anchor_run.makedev: the /dev symlinks followed by the seven character
device nodes, in the source's dict order. -/
def DEVICES : List (String × Nat × Nat × Nat) :=
  [("null", S_IFCHR, 1, 3), ("zero", S_IFCHR, 1, 5), ("random", S_IFCHR, 1, 8),
   ("urandom", S_IFCHR, 1, 9), ("console", S_IFCHR, 136, 1), ("tty", S_IFCHR, 5, 0),
   ("full", S_IFCHR, 1, 7)]

def makedev (dev_path : String) : List Event :=
  [Event.symlink "/proc/self/fd/0" (osPathJoin dev_path ["stdin"]),
   Event.symlink "/proc/self/fd/1" (osPathJoin dev_path ["stdout"]),
   Event.symlink "/proc/self/fd/2" (osPathJoin dev_path ["stderr"]),
   Event.symlink "/proc/self/fd" (osPathJoin dev_path ["fd"])]
  ++ DEVICES.map (fun d => Event.mknod (osPathJoin dev_path [d.1]) (438 ||| d.2.1) d.2.2.1 d.2.2.2)

/-- anchor_run._setup_cpu_cgroup. -/
def _setup_cpu_cgroup (container_id : String) (cpu_shares : Int) (pid : Nat)
    (fs : FS) : List Event × FS :=
  let container_cpu_cgroup_dir := osPathJoin "/sys/fs/cgroup/cpu" ["anchor", container_id]
  let d :=
    if pathExists fs container_cpu_cgroup_dir = true then (([] : List Event), fs)
    else ([Event.makedirs container_cpu_cgroup_dir], fs.addPath container_cpu_cgroup_dir)
  let tasks_file := osPathJoin container_cpu_cgroup_dir ["tasks"]
  let evs3 :=
    if cpu_shares ≠ 0 then
      [Event.writeFile (osPathJoin container_cpu_cgroup_dir ["cpu.shares"]) (toString cpu_shares)]
    else []
  (d.1 ++ [Event.writeFile tasks_file (toString pid)] ++ evs3, d.2)

/-- anchor_run._setup_memory_cgroup.  memory and memory_swap arrive from click
as strings (or None); `if x is not None` is Option.isSome. -/
def _setup_memory_cgroup (container_id : String) (memory memory_swap : Option String)
    (pid : Nat) (fs : FS) : List Event × FS :=
  let container_mem_cgroup_dir := osPathJoin "/sys/fs/cgroup/memory" ["anchor", container_id]
  let d :=
    if pathExists fs container_mem_cgroup_dir = true then (([] : List Event), fs)
    else ([Event.makedirs container_mem_cgroup_dir], fs.addPath container_mem_cgroup_dir)
  let tasks_file := osPathJoin container_mem_cgroup_dir ["tasks"]
  let evs3 :=
    match memory with
    | none => []
    | some m => [Event.writeFile (osPathJoin container_mem_cgroup_dir ["memory.limit_in_bytes"]) m]
  let evs4 :=
    match memory_swap with
    | none => []
    | some m => [Event.writeFile (osPathJoin container_mem_cgroup_dir ["memory.memsw.limit_in_bytes"]) m]
  (d.1 ++ [Event.writeFile tasks_file (toString pid)] ++ evs3 ++ evs4, d.2)

/-- The three unconditional pseudo-filesystem mounts of _create_mounts. -/
def procMount (new_root : String) : Event :=
  Event.mount (some "proc") (osPathJoin new_root ["proc"]) (some "proc") 0 (some "")

def sysMount (new_root : String) : Event :=
  Event.mount (some "sysfs") (osPathJoin new_root ["sys"]) (some "sysfs") 0 (some "")

def tmpMount (new_root : String) : Event :=
  Event.mount (some "tmpfs") (osPathJoin new_root ["dev"]) (some "tmpfs")
    (linux.MS_NOSUID ||| linux.MS_STRICTATIME) (some "mode=755")

def devptsMount (new_root : String) : Event :=
  Event.mount (some "devpts") (osPathJoin new_root ["dev", "pts"]) (some "devpts") 0 (some "")

/-- anchor_run._create_mounts: mount proc, sysfs, tmpfs; create and mount
dev/pts only when the directory is absent; then populate /dev. -/
def _create_mounts (new_root : String) (fs : FS) : List Event × FS :=
  let devpts_path := osPathJoin new_root ["dev", "pts"]
  let d :=
    if pathExists fs devpts_path = true then (([] : List Event), fs)
    else ([Event.makedirs devpts_path, devptsMount new_root], fs.addPath devpts_path)
  ([procMount new_root, sysMount new_root, tmpMount new_root] ++ d.1
     ++ makedev (osPathJoin new_root ["dev"]), d.2)

/-- uid_t/gid_t maximum on Linux (32-bit unsigned): the top of the range
CPython's uid/gid converter accepts before the setgid/setuid syscalls. -/
def ID_T_MAX : Int := 4294967295

/-- C long maximum on 64-bit Linux.  CPython's converter reports a value that
fits in a long but not in uid_t/gid_t as "less than minimum" (an artifact of
its cast round-trip check) and only a value beyond long as "greater than
maximum"; both messages verified against CPython 3.11 on 64-bit Linux. -/
def LONG_MAX : Int := 9223372036854775807

/-- The user-drop block at the end of contain: default GID 0 when no colon,
split on ':', int() both parts in execution order (gid first — setgid runs
first), ValueError on a non-numeric part or a wrong number of parts.
os.setgid/os.setuid first run CPython's gid_t/uid_t converter, which
deterministically raises OverflowError, before any syscall, for every value
outside [-1, ID_T_MAX]: "less than minimum" below -1 and for long-sized
values beyond ID_T_MAX, "greater than maximum" beyond LONG_MAX (messages
verified against CPython 3.11 on 64-bit Linux).  The source's
`except ValueError` does not catch OverflowError, but since the ValueError
handler re-raises anyway, both exceptions propagate out and the model returns
the error either way (only the printed hint differs, which the model omits).
A value the converter accepts — including -1 — is handed to the syscall and
recorded as an event; the kernel's verdict on it (EPERM without privilege,
EINVAL for unmapped or reserved ids) is abstracted, exactly as for every
other syscall event in this model. -/
def userSeq (user : String) : List Event × Except Err Unit :=
  if user = "" then ([], Except.ok ())
  else
    let user1 := if user.data.contains ':' = false then user ++ ":0" else user
    match strSplitOnChar user1 ':' with
    | [uid, gid] =>
      match pyInt gid with
      | none => ([], Except.error (Err.valueError "invalid literal for int() with base 10"))
      | some g =>
        if g < -1 then ([], Except.error (Err.overflowError "gid is less than minimum"))
        else if LONG_MAX < g then
          ([], Except.error (Err.overflowError "gid is greater than maximum"))
        else if ID_T_MAX < g then
          ([], Except.error (Err.overflowError "gid is less than minimum"))
        else
          match pyInt uid with
          | none => ([Event.setgid g], Except.error (Err.valueError "invalid literal for int() with base 10"))
          | some u =>
            if u < -1 then
              ([Event.setgid g], Except.error (Err.overflowError "uid is less than minimum"))
            else if LONG_MAX < u then
              ([Event.setgid g], Except.error (Err.overflowError "uid is greater than maximum"))
            else if ID_T_MAX < u then
              ([Event.setgid g], Except.error (Err.overflowError "uid is less than minimum"))
            else ([Event.setgid g, Event.setuid u], Except.ok ())
    | _ => ([], Except.error (Err.valueError "too many values to unpack"))

/-- The MS_PRIVATE|MS_REC remount of / performed in contain. -/
def privateMount : Event :=
  Event.mount none "/" none (linux.MS_PRIVATE ||| linux.MS_REC) none

/-- anchor_run.contain: the containment sequence run inside the cloned child.
pid is the value of os.getpid() in the child. -/
def contain (command : List String) (image_name image_dir container_id container_dir : String)
    (cpu_shares : Int) (memory memory_swap : Option String) (user : String)
    (pid : Nat) (fs : FS) : List Event × Except Err FS :=
  let a := _setup_cpu_cgroup container_id cpu_shares pid fs
  let b := _setup_memory_cgroup container_id memory memory_swap pid a.2
  let pre := a.1 ++ b.1 ++ [Event.sethostname container_id] ++ [privateMount]
  match create_container_root image_name image_dir container_id container_dir b.2 with
  | (evE, Except.error e) => (pre ++ evE, Except.error e)
  | (evE, Except.ok (new_root, fs3)) =>
    let f := _create_mounts new_root fs3
    let old_root := osPathJoin new_root ["old_root"]
    if pathExists f.2 old_root = true then
      (pre ++ evE ++ f.1, Except.error (Err.fileExistsError old_root))
    else
      let evG := [Event.makedirs old_root,
                  Event.pivotRoot new_root old_root,
                  Event.chdir "/",
                  Event.umount2 "/old_root" linux.MNT_DETACH,
                  Event.rmdir "/old_root"]
      match userSeq user with
      | (evU, Except.error e) => (pre ++ evE ++ f.1 ++ evG ++ evU, Except.error e)
      | (evU, Except.ok _) =>
        match command with
        | [] => (pre ++ evE ++ f.1 ++ evG ++ evU,
                 Except.error (Err.indexError "list index out of range"))
        | c :: _ => (pre ++ evE ++ f.1 ++ evG ++ evU ++ [Event.execvp c command],
                     Except.ok ((f.2.addPath old_root)))

/-- The CSV ledger row written by run. -/
def mkLog (pid : Nat) (container_id image_name : String) (command : List String)
    (now : String) : String :=
  toString pid ++ "," ++ container_id ++ "," ++ image_name ++ ","
    ++ String.intercalate " " command ++ "," ++ now ++ "\n"

/-- The clone flag mask used by run. -/
def CLONE_FLAGS : Nat :=
  linux.CLONE_NEWPID ||| linux.CLONE_NEWNS ||| linux.CLONE_NEWUTS ||| linux.CLONE_NEWNET

/-- anchor_run.run, parent side: clone the child (which executes contain),
append the ledger row, wait, then rewrite containers.txt without the row.
container_id (uuid4), now (strftime), pid and status are exogenous inputs. -/
def run (image_name : String) (command : List String) (container_id now : String)
    (pid status : Nat) (fs : FS) : List Event × FS :=
  let log := mkLog pid container_id image_name command now
  let fs1 := { fs with ledger := fs.ledger ++ [log] }
  let kept := fs1.ledger.filter (fun line => !(stripNl line == stripNl log))
  ([Event.clone CLONE_FLAGS, Event.ledgerAppend log, Event.waitpid pid status,
    Event.ledgerRewrite kept],
   { fs1 with ledger := kept })

/-- Modelled from the spec: true directory containment of the resolved
destination inside the directory, after normalization — the property the spec's
words ascribe to the traversal guard, to be compared with is_within_directory. -/
def specResolvedWithin (cwd directory target : String) : Bool :=
  let a := osPathAbspath cwd directory
  let t := osPathAbspath cwd target
  t == a || strStartsWith t (a ++ "/")

/-! Event classifiers used in the claim statements. -/

def isMount : Event → Bool
  | Event.mount _ _ _ _ _ => true
  | _ => false

def isPivot : Event → Bool
  | Event.pivotRoot _ _ => true
  | _ => false

def isMknod : Event → Bool
  | Event.mknod _ _ _ _ => true
  | _ => false

def isPrivDrop : Event → Bool
  | Event.setgid _ => true
  | Event.setuid _ => true
  | _ => false

def isOpenTar : Event → Bool
  | Event.openTar _ => true
  | _ => false

def isExtract : Event → Bool
  | Event.extractAll _ _ => true
  | _ => false

def isLedgerAppend : Event → Bool
  | Event.ledgerAppend _ => true
  | _ => false

def isClone : Event → Bool
  | Event.clone _ => true
  | _ => false

def isMakedirs : Event → Bool
  | Event.makedirs _ => true
  | _ => false

def isDevptsMount : Event → Bool
  | Event.mount s _ _ _ _ => s == some "devpts"
  | _ => false

def writesTo (p : String) : Event → Bool
  | Event.writeFile q _ => q == p
  | _ => false

/-- Events that are none of: mount, pivot_root, mknod, setgid/setuid, exec,
chdir, umount2, rmdir, clone, waitpid, ledger IO.  The cgroup and extraction
phases emit only such events. -/
def benign : Event → Bool
  | Event.makedirs _ => true
  | Event.openTar _ => true
  | Event.extractAll _ _ => true
  | Event.writeFile _ _ => true
  | Event.sethostname _ => true
  | Event.symlink _ _ => true
  | _ => false

/-- Whether an Except landed in ok. -/
def exceptOk {ε α : Type} : Except ε α → Bool
  | Except.ok _ => true
  | Except.error _ => false

/-- The error an Except landed in, if any. -/
def exceptErr {ε α : Type} : Except ε α → Option ε
  | Except.ok _ => none
  | Except.error e => some e

/-! Generic list helpers used by the trace arguments. -/

theorem filterOfAll {α} (p q : α → Bool) (l : List α) (h : l.all p = true)
    (hpq : ∀ a, p a = true → q a = false) : l.filter q = [] := by
  induction l with
  | nil => rfl
  | cons x xs ih =>
    rw [List.all_cons, Bool.and_eq_true] at h
    simp [List.filter_cons, hpq x h.1, ih h.2]

theorem allImp {α} (p q : α → Bool) (l : List α) (h : l.all p = true)
    (hpq : ∀ a, p a = true → q a = true) : l.all q = true := by
  induction l with
  | nil => rfl
  | cons x xs ih =>
    rw [List.all_cons, Bool.and_eq_true] at h
    rw [List.all_cons, Bool.and_eq_true]
    exact ⟨hpq x h.1, ih h.2⟩

theorem takeWhileAppendAll {α} (p : α → Bool) (l1 l2 : List α) (h : l1.all p = true) :
    (l1 ++ l2).takeWhile p = l1 ++ l2.takeWhile p := by
  induction l1 with
  | nil => rfl
  | cons x xs ih =>
    rw [List.all_cons, Bool.and_eq_true] at h
    simp [List.takeWhile_cons, h.1, ih h.2]

theorem dropWhileAppendAll {α} (p : α → Bool) (l1 l2 : List α) (h : l1.all p = true) :
    (l1 ++ l2).dropWhile p = l2.dropWhile p := by
  induction l1 with
  | nil => rfl
  | cons x xs ih =>
    rw [List.all_cons, Bool.and_eq_true] at h
    simp [List.dropWhile_cons, h.1, ih h.2]

theorem containsAppend (l1 l2 : List String) (x : String) :
    (l1 ++ l2).contains x = (l1.contains x || l2.contains x) := by
  simp [List.contains, List.elem_eq_mem]

/-! Distinctness of sibling file paths inside one cgroup directory. -/

theorem stringAppendNe (d : String) {x y : String} (h : x ≠ y) : d ++ x ≠ d ++ y := by
  intro he
  apply h
  have hd : (d ++ x).data = (d ++ y).data := congrArg String.data he
  rw [String.data_append d x, String.data_append d y] at hd
  exact String.ext (List.append_cancel_left hd)

theorem osPathJoin1Ne (dir : String) {x y : String}
    (hx : strStartsWith x "/" = false) (hy : strStartsWith y "/" = false) (h : x ≠ y) :
    osPathJoin1 dir x ≠ osPathJoin1 dir y := by
  unfold osPathJoin1
  rw [hx, hy]
  simp only [Bool.false_eq_true, if_false]
  by_cases hd : dir = "" ∨ strEndsWith dir "/"
  · simp only [hd, if_true]
    exact stringAppendNe dir h
  · simp only [hd, if_false]
    exact stringAppendNe (dir ++ "/") h

/-! Classifier facts: benign events are not mounts, pivots, mknods or
privilege drops; makedirs events are benign. -/

theorem benignNotMount (e : Event) (h : benign e = true) : isMount e = false := by
  cases e <;> simp_all [benign, isMount]

theorem benignNotPivot (e : Event) (h : benign e = true) : (!isPivot e) = true := by
  cases e <;> simp_all [benign, isPivot]

theorem benignNotMknod (e : Event) (h : benign e = true) : isMknod e = false := by
  cases e <;> simp_all [benign, isMknod]

theorem benignNotPriv (e : Event) (h : benign e = true) : isPrivDrop e = false := by
  cases e <;> simp_all [benign, isPrivDrop]

theorem makedirsBenign (e : Event) (h : isMakedirs e = true) : benign e = true := by
  cases e <;> simp_all [benign, isMakedirs]

theorem makedirsNotOpenTar (e : Event) (h : isMakedirs e = true) : isOpenTar e = false := by
  cases e <;> simp_all [isMakedirs, isOpenTar]

theorem makedirsNotExtract (e : Event) (h : isMakedirs e = true) : isExtract e = false := by
  cases e <;> simp_all [isMakedirs, isExtract]

/-! Cgroup-directory shorthands (definitionally equal to the joins made in the
setup functions). -/

def cpuCgroupDir (container_id : String) : String :=
  osPathJoin "/sys/fs/cgroup/cpu" ["anchor", container_id]

def memCgroupDir (container_id : String) : String :=
  osPathJoin "/sys/fs/cgroup/memory" ["anchor", container_id]

/-! Segment lemmas: what each phase of the containment sequence can emit. -/

theorem cpuAllBenign (c : String) (s : Int) (p : Nat) (fs : FS) :
    ((_setup_cpu_cgroup c s p fs).1).all benign = true := by
  simp only [_setup_cpu_cgroup]
  split <;> split <;> simp [benign]

theorem memAllBenign (c : String) (memory memory_swap : Option String) (p : Nat) (fs : FS) :
    ((_setup_memory_cgroup c memory memory_swap p fs).1).all benign = true := by
  simp only [_setup_memory_cgroup]
  rcases memory with _ | m <;> rcases memory_swap with _ | w <;> split <;> simp [benign]

theorem cpuTasksMem (c : String) (s : Int) (p : Nat) (fs : FS) :
    Event.writeFile (osPathJoin (cpuCgroupDir c) ["tasks"]) (toString p)
      ∈ (_setup_cpu_cgroup c s p fs).1 := by
  simp only [_setup_cpu_cgroup, cpuCgroupDir]
  split <;> split <;> simp

theorem memTasksMem (c : String) (memory memory_swap : Option String) (p : Nat) (fs : FS) :
    Event.writeFile (osPathJoin (memCgroupDir c) ["tasks"]) (toString p)
      ∈ (_setup_memory_cgroup c memory memory_swap p fs).1 := by
  simp only [_setup_memory_cgroup, memCgroupDir]
  rcases memory with _ | m <;> rcases memory_swap with _ | w <;> split <;> simp

theorem mkdirStepsAllMakedirs (ds : List String) (acc : List Event × FS)
    (h : acc.1.all isMakedirs = true) :
    ((ds.foldl mkdirStep acc).1).all isMakedirs = true := by
  induction ds generalizing acc with
  | nil => exact h
  | cons d ds ih =>
    apply ih
    unfold mkdirStep
    split
    · exact h
    · rw [List.all_append, h]
      simp [isMakedirs]

theorem mkdirStepsExists (ds : List String) (acc : List Event × FS) (q : String)
    (h : pathExists acc.2 q = true) :
    pathExists ((ds.foldl mkdirStep acc).2) q = true := by
  induction ds generalizing acc with
  | nil => exact h
  | cons d ds ih =>
    apply ih
    unfold mkdirStep
    split
    · exact h
    · simp only [FS.addPath, pathExists] at h ⊢
      rw [containsAppend, h]
      rfl

theorem pathExistsAddPath (fs : FS) (p q : String) (h : pathExists fs q = true) :
    pathExists (fs.addPath p) q = true := by
  simp only [pathExists, FS.addPath] at h ⊢
  rw [containsAppend, h]
  rfl

theorem pathExistsAddPathSelf (fs : FS) (p : String) :
    pathExists (fs.addPath p) p = true := by
  simp only [pathExists, FS.addPath]
  rw [containsAppend]
  simp [List.contains]

/-- Shape of a successful create_container_root: a benign prefix followed by
the overlay mount, returning the merged container rootfs path. -/
theorem ccrOkShape (n d c b : String) (fs : FS) (t : List Event) (nr : String) (fs2 : FS)
    (h : create_container_root n d c b fs = (t, Except.ok (nr, fs2))) :
    nr = _get_container_path c b ["rootfs"] ∧
    ∃ pre, t = pre ++ [overlayMountEv (osPathJoin d [n, "rootfs"]) nr
        (_get_container_path c b ["cow_upperdir"]) (_get_container_path c b ["cow_workdir"])]
      ∧ pre.all benign = true := by
  unfold create_container_root at h
  by_cases hip : pathExists fs (_get_image_path n d "tar") = false
  · rw [if_pos hip] at h
    exact absurd h (by simp)
  · rw [if_neg hip] at h
    by_cases hir : pathExists fs (osPathJoin d [n, "rootfs"]) = true
    · rw [if_pos hir] at h
      unfold ccrTail at h
      injection h with h1 h2
      injection h2 with h2
      injection h2 with hnr hfs
      refine ⟨hnr.symm, [] ++ (([_get_container_path c b ["cow_upperdir"],
        _get_container_path c b ["cow_workdir"],
        _get_container_path c b ["rootfs"]].foldl mkdirStep ([], fs)).1), ?_, ?_⟩
      · rw [← h1, hnr]
      · exact allImp isMakedirs benign _ (mkdirStepsAllMakedirs _ _ rfl) makedirsBenign
    · rw [if_neg hir] at h
      simp only at h
      by_cases hall : (fs.tars (_get_image_path n d "tar")).all
          (fun m => is_within_directory fs.cwd (osPathJoin d [n, "rootfs"])
            (osPathJoin (osPathJoin d [n, "rootfs"]) [m.name])) = true
      · rw [safe_extract, if_pos hall] at h
        simp only at h
        unfold ccrTail at h
        injection h with h1 h2
        injection h2 with h2
        injection h2 with hnr hfs
        refine ⟨hnr.symm, ([Event.makedirs (osPathJoin d [n, "rootfs"]),
            Event.openTar (_get_image_path n d "tar")] ++
            [Event.extractAll (osPathJoin d [n, "rootfs"])
              (((fs.tars (_get_image_path n d "tar")).filter
                (fun m => !(m.type == TarType.chr || m.type == TarType.blk))).map
                  (fun m => m.name))]) ++
            (([_get_container_path c b ["cow_upperdir"],
               _get_container_path c b ["cow_workdir"],
               _get_container_path c b ["rootfs"]].foldl mkdirStep
                 ([], fs.addPath (osPathJoin d [n, "rootfs"]))).1), ?_, ?_⟩
        · rw [← h1, hnr]
        · rw [List.all_append]
          refine Bool.and_eq_true_iff.mpr ⟨by simp [benign], ?_⟩
          exact allImp isMakedirs benign _ (mkdirStepsAllMakedirs _ _ rfl) makedirsBenign
      · rw [safe_extract, if_neg hall] at h
        simp only at h
        exact absurd h (by simp)

/-- Every error trace of create_container_root consists only of benign events
(nothing was mounted before the failure). -/
theorem ccrErrAllBenign (n d c b : String) (fs : FS) (t : List Event) (e : Err)
    (h : create_container_root n d c b fs = (t, Except.error e)) :
    t.all benign = true := by
  unfold create_container_root at h
  by_cases hip : pathExists fs (_get_image_path n d "tar") = false
  · rw [if_pos hip] at h
    injection h with h1 h2
    rw [← h1]
    rfl
  · rw [if_neg hip] at h
    by_cases hir : pathExists fs (osPathJoin d [n, "rootfs"]) = true
    · rw [if_pos hir] at h
      unfold ccrTail at h
      exact absurd h (by simp)
    · rw [if_neg hir] at h
      simp only at h
      by_cases hall : (fs.tars (_get_image_path n d "tar")).all
          (fun m => is_within_directory fs.cwd (osPathJoin d [n, "rootfs"])
            (osPathJoin (osPathJoin d [n, "rootfs"]) [m.name])) = true
      · rw [safe_extract, if_pos hall] at h
        simp only at h
        unfold ccrTail at h
        exact absurd h (by simp)
      · rw [safe_extract, if_neg hall] at h
        simp only at h
        injection h with h1 h2
        rw [← h1]
        rfl

/-- The trace of _create_mounts, explicitly. -/
theorem cmShape (nr : String) (fs : FS) :
    (_create_mounts nr fs).1 =
      [procMount nr, sysMount nr, tmpMount nr]
      ++ (if pathExists fs (osPathJoin nr ["dev", "pts"]) = true then []
          else [Event.makedirs (osPathJoin nr ["dev", "pts"]), devptsMount nr])
      ++ makedev (osPathJoin nr ["dev"]) := by
  simp only [_create_mounts]
  split <;> simp

theorem makedevFilterMount (devp : String) : (makedev devp).filter isMount = [] := by
  simp [makedev, DEVICES, isMount]

theorem makedevFilterPriv (devp : String) : (makedev devp).filter isPrivDrop = [] := by
  simp [makedev, DEVICES, isPrivDrop]

theorem makedevAllNotPivot (devp : String) :
    (makedev devp).all (fun e => !isPivot e) = true := by
  simp [makedev, DEVICES, isPivot]

theorem makedevCountMknod (devp : String) : (makedev devp).countP isMknod = 7 := by
  simp [makedev, DEVICES, List.countP_cons, List.countP_append, isMknod]

theorem makedevFilterOpenExtract (devp : String) :
    (makedev devp).filter (fun e => isOpenTar e || isExtract e) = [] := by
  simp [makedev, DEVICES, isOpenTar, isExtract]

/-- A successful userSeq either dropped nothing (empty user) or performed
exactly setgid then setuid. -/
theorem userSeqOkShape (u : String) (evU : List Event) (x : Unit)
    (h : userSeq u = (evU, Except.ok x)) :
    evU = [] ∨ ∃ g uu : Int, evU = [Event.setgid g, Event.setuid uu] := by
  simp only [userSeq] at h
  by_cases hu : u = ""
  · rw [if_pos hu] at h
    injection h with h1 h2
    exact Or.inl h1.symm
  · rw [if_neg hu] at h
    rcases hsplit : strSplitOnChar (if u.data.contains ':' = false then u ++ ":0" else u) ':' with _ | ⟨uid, rest⟩
    · rw [hsplit] at h
      exact absurd h (by simp)
    · rcases rest with _ | ⟨gid, rest2⟩
      · rw [hsplit] at h
        exact absurd h (by simp)
      · rcases rest2 with _ | ⟨z, rest3⟩
        · rw [hsplit] at h
          simp only at h
          rcases hg : pyInt gid with _ | g
          · rw [hg] at h
            exact absurd h (by simp)
          · rw [hg] at h
            simp only at h
            by_cases hg1 : g < -1
            · rw [if_pos hg1] at h
              exact absurd h (by simp)
            · rw [if_neg hg1] at h
              by_cases hgL : LONG_MAX < g
              · rw [if_pos hgL] at h
                exact absurd h (by simp)
              · rw [if_neg hgL] at h
                by_cases hg2 : ID_T_MAX < g
                · rw [if_pos hg2] at h
                  exact absurd h (by simp)
                · rw [if_neg hg2] at h
                  rcases hu2 : pyInt uid with _ | uu
                  · rw [hu2] at h
                    exact absurd h (by simp)
                  · rw [hu2] at h
                    simp only at h
                    by_cases hu3 : uu < -1
                    · rw [if_pos hu3] at h
                      exact absurd h (by simp)
                    · rw [if_neg hu3] at h
                      by_cases huL : LONG_MAX < uu
                      · rw [if_pos huL] at h
                        exact absurd h (by simp)
                      · rw [if_neg huL] at h
                        by_cases hu4 : ID_T_MAX < uu
                        · rw [if_pos hu4] at h
                          exact absurd h (by simp)
                        · rw [if_neg hu4] at h
                          injection h with h1 h2
                          exact Or.inr ⟨g, uu, h1.symm⟩
        · rw [hsplit] at h
          exact absurd h (by simp)

/-- Master decomposition of a successful containment run: the trace is the
cgroup/hostname prefix, the private remount of /, the extraction prefix, the
overlay mount, the three pseudo-fs mounts, the optional devpts creation pair,
the /dev population, the pivot_root block, the optional privilege drop, and
the final exec. -/
theorem containOkShape (cmd : List String) (n d c b : String) (s : Int)
    (mem msw : Option String) (u : String) (p : Nat) (fs : FS) (tr : List Event) (fsF : FS)
    (h : contain cmd n d c b s mem msw u p fs = (tr, Except.ok fsF)) :
    ∃ preA preE dseg evU : List Event, ∃ hd : String, ∃ tl : List String,
      cmd = hd :: tl ∧
      preA.all benign = true ∧
      preE.all benign = true ∧
      Event.writeFile (osPathJoin (cpuCgroupDir c) ["tasks"]) (toString p) ∈ preA ∧
      Event.writeFile (osPathJoin (memCgroupDir c) ["tasks"]) (toString p) ∈ preA ∧
      (dseg = [] ∨ dseg = [Event.makedirs (osPathJoin (_get_container_path c b ["rootfs"]) ["dev", "pts"]),
          devptsMount (_get_container_path c b ["rootfs"])]) ∧
      userSeq u = (evU, Except.ok ()) ∧
      tr = preA ++ [privateMount] ++ preE
        ++ [overlayMountEv (osPathJoin d [n, "rootfs"]) (_get_container_path c b ["rootfs"])
              (_get_container_path c b ["cow_upperdir"]) (_get_container_path c b ["cow_workdir"]),
            procMount (_get_container_path c b ["rootfs"]),
            sysMount (_get_container_path c b ["rootfs"]),
            tmpMount (_get_container_path c b ["rootfs"])]
        ++ dseg
        ++ makedev (osPathJoin (_get_container_path c b ["rootfs"]) ["dev"])
        ++ [Event.makedirs (osPathJoin (_get_container_path c b ["rootfs"]) ["old_root"]),
            Event.pivotRoot (_get_container_path c b ["rootfs"])
              (osPathJoin (_get_container_path c b ["rootfs"]) ["old_root"]),
            Event.chdir "/",
            Event.umount2 "/old_root" linux.MNT_DETACH,
            Event.rmdir "/old_root"]
        ++ evU ++ [Event.execvp hd cmd] := by
  rcases hccr : create_container_root n d c b
      ((_setup_memory_cgroup c mem msw p ((_setup_cpu_cgroup c s p fs).2)).2) with ⟨evE, rE⟩
  simp only [contain, hccr] at h
  rcases rE with e | ⟨nrv, fs3⟩
  · exact absurd h (by simp)
  · simp only at h
    by_cases hold : pathExists ((_create_mounts nrv fs3).2) (osPathJoin nrv ["old_root"]) = true
    · rw [if_pos hold] at h
      exact absurd h (by simp)
    · rw [if_neg hold] at h
      rcases hus : userSeq u with ⟨evU, rU⟩
      rw [hus] at h
      rcases rU with e | xx
      · exact absurd h (by simp)
      · rcases cmd with _ | ⟨hd, tl⟩
        · exact absurd h (by simp)
        · simp only at h
          injection h with h1 h2
          obtain ⟨hnr, preE, hEeq, hEben⟩ := ccrOkShape n d c b _ evE nrv fs3 hccr
          refine ⟨(_setup_cpu_cgroup c s p fs).1
              ++ (_setup_memory_cgroup c mem msw p ((_setup_cpu_cgroup c s p fs).2)).1
              ++ [Event.sethostname c],
            preE,
            (if pathExists fs3 (osPathJoin nrv ["dev", "pts"]) = true then []
             else [Event.makedirs (osPathJoin nrv ["dev", "pts"]), devptsMount nrv]),
            evU, hd, tl, rfl, ?_, hEben, ?_, ?_, ?_, ?_, ?_⟩
          · rw [List.all_append, List.all_append]
            rw [cpuAllBenign c s p fs, memAllBenign c mem msw p _]
            rfl
          · exact List.mem_append_left _ (List.mem_append_left _ (cpuTasksMem c s p fs))
          · exact List.mem_append_left _ (List.mem_append_right _ (memTasksMem c mem msw p _))
          · rw [hnr]
            split
            · exact Or.inl rfl
            · exact Or.inr rfl
          · cases xx
            rfl
          · rw [← h1, hEeq, cmShape nrv fs3, hnr]
            simp [List.append_assoc]

theorem countPOfAll {α} (p q : α → Bool) (l : List α) (h : l.all p = true)
    (hpq : ∀ a, p a = true → q a = false) : l.countP q = 0 := by
  rw [List.countP_eq_length_filter, filterOfAll p q l h hpq]
  rfl

theorem getLastAppendSingleton {α} (l : List α) (a : α) : (l ++ [a]).getLast? = some a :=
  List.getLast?_concat l

/-- C3: in a successful containment run, both cgroup tasks writes precede
pivot_root; the first mount is the MS_PRIVATE|MS_REC remount of /, then the
overlay, then proc, sysfs, tmpfs and (possibly) devpts; the seven device nodes
are created and none after pivot_root; pivot_root is immediately followed by
chdir /, umount2(/old_root, MNT_DETACH) and rmdir /old_root; any privilege
drop is exactly setgid then setuid; and exec is the last event. -/
theorem claim3_contain_order (cmd : List String) (n d c b : String) (s : Int)
    (mem msw : Option String) (u : String) (p : Nat) (fs : FS)
    (h : exceptOk (contain cmd n d c b s mem msw u p fs).2 = true) :
    Event.writeFile (osPathJoin (cpuCgroupDir c) ["tasks"]) (toString p)
        ∈ (contain cmd n d c b s mem msw u p fs).1.takeWhile (fun e => !isPivot e) ∧
    Event.writeFile (osPathJoin (memCgroupDir c) ["tasks"]) (toString p)
        ∈ (contain cmd n d c b s mem msw u p fs).1.takeWhile (fun e => !isPivot e) ∧
    (∃ dopt, (dopt = [] ∨ dopt = [devptsMount (_get_container_path c b ["rootfs"])]) ∧
      (contain cmd n d c b s mem msw u p fs).1.filter isMount =
        [privateMount,
         overlayMountEv (osPathJoin d [n, "rootfs"]) (_get_container_path c b ["rootfs"])
           (_get_container_path c b ["cow_upperdir"]) (_get_container_path c b ["cow_workdir"]),
         procMount (_get_container_path c b ["rootfs"]),
         sysMount (_get_container_path c b ["rootfs"]),
         tmpMount (_get_container_path c b ["rootfs"])] ++ dopt) ∧
    (contain cmd n d c b s mem msw u p fs).1.countP isMknod = 7 ∧
    ((contain cmd n d c b s mem msw u p fs).1.dropWhile (fun e => !isPivot e)).filter isMknod = [] ∧
    (∃ post, (contain cmd n d c b s mem msw u p fs).1.dropWhile (fun e => !isPivot e) =
      Event.pivotRoot (_get_container_path c b ["rootfs"])
          (osPathJoin (_get_container_path c b ["rootfs"]) ["old_root"]) ::
        Event.chdir "/" :: Event.umount2 "/old_root" linux.MNT_DETACH ::
        Event.rmdir "/old_root" :: post) ∧
    ((contain cmd n d c b s mem msw u p fs).1.filter isPrivDrop = [] ∨
      ∃ g uu : Int, (contain cmd n d c b s mem msw u p fs).1.filter isPrivDrop =
        [Event.setgid g, Event.setuid uu]) ∧
    (∃ hd, (contain cmd n d c b s mem msw u p fs).1.getLast? = some (Event.execvp hd cmd)) := by
  rcases hc : contain cmd n d c b s mem msw u p fs with ⟨tr, r⟩
  rw [hc] at h
  rcases r with e | fsF
  · exact absurd h (by simp [exceptOk])
  · obtain ⟨preA, preE, dseg, evU, hd, tl, hcmd, hAben, hEben, hcpu, hmem, hdseg, hus, htr⟩ :=
      containOkShape cmd n d c b s mem msw u p fs tr fsF hc
    dsimp only
    have hAnp : preA.all (fun e => !isPivot e) = true :=
      allImp benign _ preA hAben benignNotPivot
    have hEnp : preE.all (fun e => !isPivot e) = true :=
      allImp benign _ preE hEben benignNotPivot
    have hPnp : [privateMount].all (fun e => !isPivot e) = true := by
      simp [privateMount, isPivot]
    have hMnp : [overlayMountEv (osPathJoin d [n, "rootfs"]) (_get_container_path c b ["rootfs"])
           (_get_container_path c b ["cow_upperdir"]) (_get_container_path c b ["cow_workdir"]),
         procMount (_get_container_path c b ["rootfs"]),
         sysMount (_get_container_path c b ["rootfs"]),
         tmpMount (_get_container_path c b ["rootfs"])].all (fun e => !isPivot e) = true := by
      simp [overlayMountEv, procMount, sysMount, tmpMount, isPivot]
    have hDnp : dseg.all (fun e => !isPivot e) = true := by
      rcases hdseg with h0 | h2
      · rw [h0]; rfl
      · rw [h2]; simp [devptsMount, isPivot]
    have hVnp : (makedev (osPathJoin (_get_container_path c b ["rootfs"]) ["dev"])).all
        (fun e => !isPivot e) = true := makedevAllNotPivot _
    have hfA : preA.filter isMount = [] := filterOfAll benign isMount preA hAben benignNotMount
    have hfE : preE.filter isMount = [] := filterOfAll benign isMount preE hEben benignNotMount
    have hfV : (makedev (osPathJoin (_get_container_path c b ["rootfs"]) ["dev"])).filter
        isMount = [] := makedevFilterMount _
    have hcA : preA.countP isMknod = 0 := countPOfAll benign isMknod preA hAben benignNotMknod
    have hcE : preE.countP isMknod = 0 := countPOfAll benign isMknod preE hEben benignNotMknod
    have hpA : preA.filter isPrivDrop = [] := filterOfAll benign isPrivDrop preA hAben benignNotPriv
    have hpE : preE.filter isPrivDrop = [] := filterOfAll benign isPrivDrop preE hEben benignNotPriv
    have hpV : (makedev (osPathJoin (_get_container_path c b ["rootfs"]) ["dev"])).filter
        isPrivDrop = [] := makedevFilterPriv _
    have hdrop : tr.dropWhile (fun e => !isPivot e) =
        Event.pivotRoot (_get_container_path c b ["rootfs"])
            (osPathJoin (_get_container_path c b ["rootfs"]) ["old_root"]) ::
          Event.chdir "/" :: Event.umount2 "/old_root" linux.MNT_DETACH ::
          Event.rmdir "/old_root" :: (evU ++ [Event.execvp hd cmd]) := by
      rw [htr]
      simp only [List.append_assoc]
      rw [dropWhileAppendAll _ _ _ hAnp, dropWhileAppendAll _ _ _ hPnp,
        dropWhileAppendAll _ _ _ hEnp, dropWhileAppendAll _ _ _ hMnp,
        dropWhileAppendAll _ _ _ hDnp, dropWhileAppendAll _ _ _ hVnp]
      simp [List.dropWhile_cons, isPivot]
    refine ⟨?_, ?_, ?_, ?_, ?_, ?_, ?_, ?_⟩
    · rw [htr]
      simp only [List.append_assoc]
      rw [takeWhileAppendAll _ _ _ hAnp]
      exact List.mem_append_left _ hcpu
    · rw [htr]
      simp only [List.append_assoc]
      rw [takeWhileAppendAll _ _ _ hAnp]
      exact List.mem_append_left _ hmem
    · rcases hdseg with h0 | h2
      · refine ⟨[], Or.inl rfl, ?_⟩
        rw [htr, h0]
        rcases userSeqOkShape u evU () hus with hU0 | ⟨g, uu, hUg⟩
        · rw [hU0]
          simp [List.filter_append, hfA, hfE, hfV, isMount, privateMount, overlayMountEv,
            procMount, sysMount, tmpMount]
        · rw [hUg]
          simp [List.filter_append, hfA, hfE, hfV, isMount, privateMount, overlayMountEv,
            procMount, sysMount, tmpMount]
      · refine ⟨[devptsMount (_get_container_path c b ["rootfs"])], Or.inr rfl, ?_⟩
        rw [htr, h2]
        rcases userSeqOkShape u evU () hus with hU0 | ⟨g, uu, hUg⟩
        · rw [hU0]
          simp [List.filter_append, hfA, hfE, hfV, isMount, privateMount, overlayMountEv,
            procMount, sysMount, tmpMount, devptsMount]
        · rw [hUg]
          simp [List.filter_append, hfA, hfE, hfV, isMount, privateMount, overlayMountEv,
            procMount, sysMount, tmpMount, devptsMount]
    · rw [htr]
      have hcV : (makedev (osPathJoin (_get_container_path c b ["rootfs"]) ["dev"])).countP
          isMknod = 7 := makedevCountMknod _
      rcases hdseg with h0 | h0 <;>
        rcases userSeqOkShape u evU () hus with hU | ⟨g, uu, hU⟩ <;>
        rw [h0, hU] <;>
        simp [List.countP_append, hcA, hcE, hcV, List.countP_cons, isMknod,
          privateMount, overlayMountEv, procMount, sysMount, tmpMount, devptsMount]
    · rw [hdrop]
      rcases userSeqOkShape u evU () hus with hU | ⟨g, uu, hU⟩ <;>
        rw [hU] <;> simp [List.filter_append, isMknod]
    · exact ⟨evU ++ [Event.execvp hd cmd], hdrop⟩
    · rw [htr]
      rcases userSeqOkShape u evU () hus with hU0 | ⟨g, uu, hUg⟩
      · rw [hU0]
        left
        rcases hdseg with h0 | h0 <;>
          rw [h0] <;>
          simp [List.filter_append, hpA, hpE, hpV, isPrivDrop, privateMount,
            overlayMountEv, procMount, sysMount, tmpMount, devptsMount]
      · rw [hUg]
        right
        refine ⟨g, uu, ?_⟩
        rcases hdseg with h0 | h0 <;>
          rw [h0] <;>
          simp [List.filter_append, hpA, hpE, hpV, isPrivDrop, privateMount,
            overlayMountEv, procMount, sysMount, tmpMount, devptsMount]
    · refine ⟨hd, ?_⟩
      rw [htr]
      exact getLastAppendSingleton _ _

theorem osPathJoinSingle (dir x : String) : osPathJoin dir [x] = osPathJoin1 dir x := rfl

theorem joinTasksNeShares (dir : String) :
    osPathJoin dir ["tasks"] ≠ osPathJoin dir ["cpu.shares"] := by
  rw [osPathJoinSingle, osPathJoinSingle]
  exact osPathJoin1Ne dir (by decide) (by decide) (by decide)

theorem joinTasksNeLimit (dir : String) :
    osPathJoin dir ["tasks"] ≠ osPathJoin dir ["memory.limit_in_bytes"] := by
  rw [osPathJoinSingle, osPathJoinSingle]
  exact osPathJoin1Ne dir (by decide) (by decide) (by decide)

theorem joinTasksNeMemsw (dir : String) :
    osPathJoin dir ["tasks"] ≠ osPathJoin dir ["memory.memsw.limit_in_bytes"] := by
  rw [osPathJoinSingle, osPathJoinSingle]
  exact osPathJoin1Ne dir (by decide) (by decide) (by decide)

theorem joinLimitNeMemsw (dir : String) :
    osPathJoin dir ["memory.limit_in_bytes"] ≠ osPathJoin dir ["memory.memsw.limit_in_bytes"] := by
  rw [osPathJoinSingle, osPathJoinSingle]
  exact osPathJoin1Ne dir (by decide) (by decide) (by decide)

/-- C5: cgroup setup always writes the child's PID into the tasks file of both
the cpu and memory cgroup directories for the container id; cpu.shares is
written (with the given value) exactly when cpu_shares is nonzero; each memory
limit file is written exactly when the corresponding option is set. -/
theorem claim5_cgroup_writes (c : String) (s : Int) (memory memory_swap : Option String)
    (p : Nat) (fs fs2 : FS) :
    Event.writeFile (osPathJoin (cpuCgroupDir c) ["tasks"]) (toString p)
        ∈ (_setup_cpu_cgroup c s p fs).1 ∧
    Event.writeFile (osPathJoin (memCgroupDir c) ["tasks"]) (toString p)
        ∈ (_setup_memory_cgroup c memory memory_swap p fs2).1 ∧
    (_setup_cpu_cgroup c s p fs).1.filter (writesTo (osPathJoin (cpuCgroupDir c) ["cpu.shares"])) =
      (if s = 0 then []
       else [Event.writeFile (osPathJoin (cpuCgroupDir c) ["cpu.shares"]) (toString s)]) ∧
    (_setup_memory_cgroup c memory memory_swap p fs2).1.filter
        (writesTo (osPathJoin (memCgroupDir c) ["memory.limit_in_bytes"])) =
      (match memory with
       | none => []
       | some m => [Event.writeFile (osPathJoin (memCgroupDir c) ["memory.limit_in_bytes"]) m]) ∧
    (_setup_memory_cgroup c memory memory_swap p fs2).1.filter
        (writesTo (osPathJoin (memCgroupDir c) ["memory.memsw.limit_in_bytes"])) =
      (match memory_swap with
       | none => []
       | some m => [Event.writeFile (osPathJoin (memCgroupDir c) ["memory.memsw.limit_in_bytes"]) m]) := by
  have hne1 : (osPathJoin (cpuCgroupDir c) ["tasks"] == osPathJoin (cpuCgroupDir c) ["cpu.shares"]) = false := by
    rw [beq_eq_false_iff_ne]
    exact joinTasksNeShares _
  have hne2 : (osPathJoin (memCgroupDir c) ["tasks"] == osPathJoin (memCgroupDir c) ["memory.limit_in_bytes"]) = false := by
    rw [beq_eq_false_iff_ne]
    exact joinTasksNeLimit _
  have hne3 : (osPathJoin (memCgroupDir c) ["tasks"] == osPathJoin (memCgroupDir c) ["memory.memsw.limit_in_bytes"]) = false := by
    rw [beq_eq_false_iff_ne]
    exact joinTasksNeMemsw _
  have hne4 : (osPathJoin (memCgroupDir c) ["memory.limit_in_bytes"] == osPathJoin (memCgroupDir c) ["memory.memsw.limit_in_bytes"]) = false := by
    rw [beq_eq_false_iff_ne]
    exact joinLimitNeMemsw _
  have hne4s : (osPathJoin (memCgroupDir c) ["memory.memsw.limit_in_bytes"] == osPathJoin (memCgroupDir c) ["memory.limit_in_bytes"]) = false := by
    rw [beq_eq_false_iff_ne]
    exact fun hx => joinLimitNeMemsw _ hx.symm
  refine ⟨cpuTasksMem c s p fs, memTasksMem c memory memory_swap p fs2, ?_, ?_, ?_⟩
  · simp only [_setup_cpu_cgroup, cpuCgroupDir] at *
    split <;> by_cases hs : s = 0 <;>
      simp [hs, List.filter_append, writesTo, hne1, beq_self_eq_true]
  · simp only [_setup_memory_cgroup, memCgroupDir] at *
    rcases memory with _ | m <;> rcases memory_swap with _ | w <;> split <;>
      simp [List.filter_append, writesTo, hne2, hne4s, beq_self_eq_true]
  · simp only [_setup_memory_cgroup, memCgroupDir] at *
    rcases memory with _ | m <;> rcases memory_swap with _ | w <;> split <;>
      simp [List.filter_append, writesTo, hne3, hne4, beq_self_eq_true]

/-! Concrete world states used for witnesses and counterexamples. -/

/-- No paths exist, no archives, empty ledger. -/
def fsEmpty : FS :=
  { existing := [], tars := fun _ => [], cwd := "/", ledger := [] }

/-- A well-formed image archive "ubu" with two ordinary members. -/
def fsOk : FS :=
  { existing := ["/img/ubu.tar"],
    tars := fun p => if p = "/img/ubu.tar" then
        [⟨"bin", TarType.dir⟩, ⟨"bin/sh", TarType.reg⟩] else [],
    cwd := "/w", ledger := [] }

/-- An archive whose member resolves to the sibling path /img/evil/rootfsX:
outside the rootfs directory, yet sharing it as a string prefix. -/
def fsEvil : FS :=
  { existing := ["/img/evil.tar"],
    tars := fun p => if p = "/img/evil.tar" then [⟨"../rootfsX", TarType.reg⟩] else [],
    cwd := "/w", ledger := [] }

/-- An archive with a member the commonprefix check does reject. -/
def fsTrav : FS :=
  { existing := ["/img/bad.tar"],
    tars := fun p => if p = "/img/bad.tar" then [⟨"../x", TarType.reg⟩] else [],
    cwd := "/w", ledger := [] }

/-- Image tarball and an already-extracted rootfs directory both present. -/
def fsReuse : FS :=
  { existing := ["/img/ubu.tar", "/img/ubu/rootfs"], tars := fun _ => [],
    cwd := "/w", ledger := [] }

/-- C7 (amended): _create_mounts mounts proc, sysfs and tmpfs unconditionally
without creating new_root/proc, new_root/sys or new_root/dev; the only
directory it ever creates is new_root/dev/pts (when absent), in which case it
also mounts devpts there. -/
theorem claim7_create_mounts (nr : String) (fs : FS) :
    (_create_mounts nr fs).1.filter isMount =
      [procMount nr, sysMount nr, tmpMount nr]
      ++ (if pathExists fs (osPathJoin nr ["dev", "pts"]) = true then []
          else [devptsMount nr]) ∧
    (_create_mounts nr fs).1.filter isMakedirs =
      (if pathExists fs (osPathJoin nr ["dev", "pts"]) = true then []
       else [Event.makedirs (osPathJoin nr ["dev", "pts"])]) := by
  constructor <;> rw [cmShape] <;> split <;>
    simp [List.filter_append, makedev, DEVICES, isMount, isMakedirs,
      procMount, sysMount, tmpMount, devptsMount]

/-- C7 (counterexample): with nothing existing under /r, new_root/proc is
absent and yet _create_mounts never creates it — contradicting the claim that
proc/, sys/, dev/ are created whenever absent before the mounts. -/
theorem claim7_counterexample :
    pathExists fsEmpty (osPathJoin "/r" ["proc"]) = false ∧
    Event.makedirs (osPathJoin "/r" ["proc"]) ∉ (_create_mounts "/r" fsEmpty).1 := by
  decide

/-- C10: the devpts filesystem is mounted at new_root/dev/pts exactly in the
branch where that directory was absent and just created (the creation event
immediately precedes the mount); if the directory already exists, no devpts
mount happens at all. -/
theorem claim10_devpts (nr : String) (fs : FS) :
    (_create_mounts nr fs).1.filter isDevptsMount =
      (if pathExists fs (osPathJoin nr ["dev", "pts"]) = true then []
       else [devptsMount nr]) ∧
    (_create_mounts nr fs).1.filter (fun e => isDevptsMount e || isMakedirs e) =
      (if pathExists fs (osPathJoin nr ["dev", "pts"]) = true then []
       else [Event.makedirs (osPathJoin nr ["dev", "pts"]), devptsMount nr]) := by
  constructor <;> rw [cmShape] <;> split <;>
    simp [List.filter_append, makedev, DEVICES, isDevptsMount, isMakedirs,
      procMount, sysMount, tmpMount, devptsMount]

/-- C9: when image_dir/image_name/rootfs already exists (whatever its content)
and the tarball is present, create_container_root never opens the tar, never
extracts, succeeds, and mounts the overlay with the existing directory as
lowerdir. -/
theorem claim9_rootfs_reuse (n d c b : String) (fs : FS)
    (hip : pathExists fs (_get_image_path n d "tar") = true)
    (hir : pathExists fs (osPathJoin d [n, "rootfs"]) = true) :
    (create_container_root n d c b fs).1.countP isOpenTar = 0 ∧
    (create_container_root n d c b fs).1.countP isExtract = 0 ∧
    (∃ fs2, (create_container_root n d c b fs).2 =
      Except.ok (_get_container_path c b ["rootfs"], fs2)) ∧
    overlayMountEv (osPathJoin d [n, "rootfs"]) (_get_container_path c b ["rootfs"])
        (_get_container_path c b ["cow_upperdir"]) (_get_container_path c b ["cow_workdir"])
      ∈ (create_container_root n d c b fs).1 := by
  have hmk := mkdirStepsAllMakedirs
    [_get_container_path c b ["cow_upperdir"], _get_container_path c b ["cow_workdir"],
     _get_container_path c b ["rootfs"]] ([], fs) rfl
  simp only [create_container_root]
  rw [hip, hir]
  simp only [Bool.true_eq_false, if_false, if_true]
  refine ⟨?_, ?_, ⟨_, rfl⟩, ?_⟩
  · simp only [ccrTail, List.nil_append]
    rw [List.countP_append, countPOfAll isMakedirs isOpenTar _ hmk makedirsNotOpenTar]
    simp [isOpenTar, overlayMountEv]
  · simp only [ccrTail, List.nil_append]
    rw [List.countP_append, countPOfAll isMakedirs isExtract _ hmk makedirsNotExtract]
    simp [isExtract, overlayMountEv]
  · simp [ccrTail]

/-- Witness for C9 at a concrete state. -/
theorem claim9_witness :
    (create_container_root "ubu" "/img" "c1" "/ct" fsReuse).1.countP isOpenTar = 0 :=
  (claim9_rootfs_reuse "ubu" "/img" "c1" "/ct" fsReuse (by decide) (by decide)).1

/-- C1 (amended): on a fresh extraction, create_container_root aborts with the
path-traversal exception if and only if some archive member fails the
commonprefix string-prefix check of is_within_directory; on abort nothing has
been extracted (the trace is exactly the makedirs of image_root and the tar
open, so image_root is left created but empty); when every member passes the
check, extractall runs and the call succeeds.  The check is a string-prefix
test, not true directory containment (see the counterexample). -/
theorem claim1_traversal_guard (n d c b : String) (fs : FS)
    (hip : pathExists fs (_get_image_path n d "tar") = true)
    (hir : pathExists fs (osPathJoin d [n, "rootfs"]) = false) :
    (((create_container_root n d c b fs).2 =
        Except.error (Err.exception "Attempted Path Traversal in Tar File")) ↔
      (fs.tars (_get_image_path n d "tar")).all
        (fun m => is_within_directory fs.cwd (osPathJoin d [n, "rootfs"])
          (osPathJoin (osPathJoin d [n, "rootfs"]) [m.name])) = false) ∧
    ((fs.tars (_get_image_path n d "tar")).all
        (fun m => is_within_directory fs.cwd (osPathJoin d [n, "rootfs"])
          (osPathJoin (osPathJoin d [n, "rootfs"]) [m.name])) = false →
      (create_container_root n d c b fs).1 =
        [Event.makedirs (osPathJoin d [n, "rootfs"]), Event.openTar (_get_image_path n d "tar")]) ∧
    ((fs.tars (_get_image_path n d "tar")).all
        (fun m => is_within_directory fs.cwd (osPathJoin d [n, "rootfs"])
          (osPathJoin (osPathJoin d [n, "rootfs"]) [m.name])) = true →
      exceptOk (create_container_root n d c b fs).2 = true ∧
      Event.extractAll (osPathJoin d [n, "rootfs"])
          (((fs.tars (_get_image_path n d "tar")).filter
            (fun m => !(m.type == TarType.chr || m.type == TarType.blk))).map (fun m => m.name))
        ∈ (create_container_root n d c b fs).1) := by
  simp only [create_container_root]
  rw [hip, hir]
  simp only [Bool.true_eq_false, Bool.false_eq_true, if_false]
  by_cases hall : (fs.tars (_get_image_path n d "tar")).all
      (fun m => is_within_directory fs.cwd (osPathJoin d [n, "rootfs"])
        (osPathJoin (osPathJoin d [n, "rootfs"]) [m.name])) = true
  · rw [safe_extract, if_pos hall]
    simp only
    refine ⟨?_, ?_, ?_⟩
    · rw [hall]
      simp [ccrTail, Bool.true_eq_false]
    · intro hf
      rw [hall] at hf
      exact absurd hf (by simp)
    · intro _
      constructor
      · simp [ccrTail, exceptOk]
      · simp [ccrTail]
  · rw [safe_extract, if_neg hall]
    simp only
    have hallf : (fs.tars (_get_image_path n d "tar")).all
        (fun m => is_within_directory fs.cwd (osPathJoin d [n, "rootfs"])
          (osPathJoin (osPathJoin d [n, "rootfs"]) [m.name])) = false := by
      cases hB : (fs.tars (_get_image_path n d "tar")).all
          (fun m => is_within_directory fs.cwd (osPathJoin d [n, "rootfs"])
            (osPathJoin (osPathJoin d [n, "rootfs"]) [m.name]))
      · rfl
      · exact absurd hB hall
    refine ⟨?_, ?_, ?_⟩
    · rw [hallf]
      simp
    · intro _
      rfl
    · intro ht
      exact absurd ht hall

/-- C1 (counterexample): the archive member "../rootfsX" resolves to
/img/evil/rootfsX — outside /img/evil/rootfs under the spec's notion of
containment — yet extraction proceeds and succeeds, because the commonprefix
check accepts any absolute path extending the string "/img/evil/rootfs". -/
theorem claim1_counterexample :
    specResolvedWithin "/w" (osPathJoin "/img" ["evil", "rootfs"])
        (osPathJoin (osPathJoin "/img" ["evil", "rootfs"]) ["../rootfsX"]) = false ∧
    exceptOk (create_container_root "evil" "/img" "c" "/ct" fsEvil).2 = true ∧
    Event.extractAll (osPathJoin "/img" ["evil", "rootfs"]) ["../rootfsX"]
      ∈ (create_container_root "evil" "/img" "c" "/ct" fsEvil).1 := by
  decide

/-- Witness for C1 (amended) at a rejected archive. -/
theorem claim1_witness :
    (create_container_root "bad" "/img" "c1" "/ct" fsTrav).2 =
      Except.error (Err.exception "Attempted Path Traversal in Tar File") :=
  (claim1_traversal_guard "bad" "/img" "c1" "/ct" fsTrav (by decide) (by decide)).1.mpr
    (by decide)

/-- The world state after a create_container_root call (unchanged on error). -/
def ccrResFS (n d c b : String) (fs : FS) : FS :=
  match (create_container_root n d c b fs).2 with
  | Except.ok pr => pr.2
  | Except.error _ => fs

theorem pathExistsAddPathNe (fs : FS) (p q : String) (hq : pathExists fs q = false)
    (hne : q ≠ p) : pathExists (fs.addPath p) q = false := by
  simp only [pathExists, FS.addPath] at hq ⊢
  rw [containsAppend, hq]
  simp [List.contains, beq_eq_false_iff_ne, hne]

/-- C4: a successful fresh call extracts exactly once; calling again with the
same arguments returns the same container rootfs path, does not open the tar
and does not extract, and leaves the state unchanged. -/
theorem claim4_extract_once (n d c b : String) (fs : FS)
    (hok : exceptOk (create_container_root n d c b fs).2 = true)
    (hir : pathExists fs (osPathJoin d [n, "rootfs"]) = false) :
    (create_container_root n d c b fs).1.countP isExtract = 1 ∧
    (create_container_root n d c b fs).1.countP isOpenTar = 1 ∧
    (create_container_root n d c b fs).2 =
      Except.ok (_get_container_path c b ["rootfs"], ccrResFS n d c b fs) ∧
    (create_container_root n d c b (ccrResFS n d c b fs)).1.countP isOpenTar = 0 ∧
    (create_container_root n d c b (ccrResFS n d c b fs)).1.countP isExtract = 0 ∧
    (∃ fs2, (create_container_root n d c b (ccrResFS n d c b fs)).2 =
      Except.ok (_get_container_path c b ["rootfs"], fs2)) := by
  have hip : pathExists fs (_get_image_path n d "tar") = true := by
    cases hB : pathExists fs (_get_image_path n d "tar")
    · exfalso
      have hred : create_container_root n d c b fs =
          ([], Except.error (Err.assertionError ("unable to locate image " ++ n))) := by
        simp only [create_container_root]
        rw [hB]
        simp
      rw [hred] at hok
      exact absurd hok (by simp [exceptOk])
    · rfl
  by_cases hall : (fs.tars (_get_image_path n d "tar")).all
      (fun m => is_within_directory fs.cwd (osPathJoin d [n, "rootfs"])
        (osPathJoin (osPathJoin d [n, "rootfs"]) [m.name])) = true
  case neg =>
    exfalso
    have hred : (create_container_root n d c b fs).2 =
        Except.error (Err.exception "Attempted Path Traversal in Tar File") := by
      simp only [create_container_root]
      rw [hip, hir]
      simp only [Bool.true_eq_false, Bool.false_eq_true, if_false]
      rw [safe_extract, if_neg hall]
    rw [hred] at hok
    exact absurd hok (by simp [exceptOk])
  case pos =>
    have hred : create_container_root n d c b fs =
        ccrTail (osPathJoin d [n, "rootfs"]) c b
          [Event.makedirs (osPathJoin d [n, "rootfs"]), Event.openTar (_get_image_path n d "tar"),
           Event.extractAll (osPathJoin d [n, "rootfs"])
             (((fs.tars (_get_image_path n d "tar")).filter
               (fun m => !(m.type == TarType.chr || m.type == TarType.blk))).map (fun m => m.name))]
          (fs.addPath (osPathJoin d [n, "rootfs"])) := by
      simp only [create_container_root]
      rw [hip, hir]
      simp only [Bool.true_eq_false, Bool.false_eq_true, if_false]
      rw [safe_extract, if_pos hall]
      rfl
    have hmk := mkdirStepsAllMakedirs
      [_get_container_path c b ["cow_upperdir"], _get_container_path c b ["cow_workdir"],
       _get_container_path c b ["rootfs"]] ([], fs.addPath (osPathJoin d [n, "rootfs"])) rfl
    have hfs1 : ccrResFS n d c b fs =
        ([_get_container_path c b ["cow_upperdir"], _get_container_path c b ["cow_workdir"],
          _get_container_path c b ["rootfs"]].foldl mkdirStep
            ([], fs.addPath (osPathJoin d [n, "rootfs"]))).2 := by
      rw [ccrResFS, hred]
      rfl
    have hip2 : pathExists (ccrResFS n d c b fs) (_get_image_path n d "tar") = true := by
      rw [hfs1]
      exact mkdirStepsExists _ _ _ (pathExistsAddPath fs _ _ hip)
    have hir2 : pathExists (ccrResFS n d c b fs) (osPathJoin d [n, "rootfs"]) = true := by
      rw [hfs1]
      exact mkdirStepsExists _ _ _ (pathExistsAddPathSelf fs _)
    have hred2 : create_container_root n d c b (ccrResFS n d c b fs) =
        ccrTail (osPathJoin d [n, "rootfs"]) c b [] (ccrResFS n d c b fs) := by
      simp only [create_container_root]
      rw [hip2, hir2]
      simp only [Bool.true_eq_false, if_false, if_true]
    have hmk2 := mkdirStepsAllMakedirs
      [_get_container_path c b ["cow_upperdir"], _get_container_path c b ["cow_workdir"],
       _get_container_path c b ["rootfs"]] ([], ccrResFS n d c b fs) rfl
    refine ⟨?_, ?_, ?_, ?_, ?_, ?_⟩
    · rw [hred]
      simp only [ccrTail]
      rw [List.append_assoc, List.countP_append, List.countP_append,
        countPOfAll isMakedirs isExtract _ hmk makedirsNotExtract]
      simp [isExtract, List.countP_cons, overlayMountEv]
    · rw [hred]
      simp only [ccrTail]
      rw [List.append_assoc, List.countP_append, List.countP_append,
        countPOfAll isMakedirs isOpenTar _ hmk makedirsNotOpenTar]
      simp [isOpenTar, List.countP_cons, overlayMountEv]
    · rw [hred, hfs1]
      rfl
    · rw [hred2]
      simp only [ccrTail, List.nil_append]
      rw [List.countP_append, countPOfAll isMakedirs isOpenTar _ hmk2 makedirsNotOpenTar]
      simp [isOpenTar, overlayMountEv]
    · rw [hred2]
      simp only [ccrTail, List.nil_append]
      rw [List.countP_append, countPOfAll isMakedirs isExtract _ hmk2 makedirsNotExtract]
      simp [isExtract, overlayMountEv]
    · rw [hred2]
      exact ⟨_, rfl⟩

/-- Witness for C4 at a concrete fresh state. -/
theorem claim4_witness :
    (create_container_root "ubu" "/img" "c1" "/ct" fsOk).1.countP isExtract = 1 :=
  (claim4_extract_once "ubu" "/img" "c1" "/ct" fsOk (by decide) (by decide)).1

theorem ledgerAllRemoved (l : List String) (log : String) :
    (l.filter (fun line => !(stripNl line == stripNl log))).all
      (fun line => !(stripNl line == stripNl log)) = true := by
  rw [List.all_eq_true]
  intro x hx
  exact (List.mem_filter.mp hx).2

/-- C2 (amended): the parent's trace is exactly clone, then the ledger append
of the row (which contains the child PID returned by clone), then waitpid,
then the rewrite of containers.txt; so the row is in the file from just after
clone until after waitpid returns, and after a normal completion no line
matching the row remains. -/
theorem claim2_ledger_lifecycle (image_name : String) (cmd : List String)
    (cid now : String) (pid status : Nat) (fs : FS) :
    (run image_name cmd cid now pid status fs).1 =
      [Event.clone CLONE_FLAGS,
       Event.ledgerAppend (mkLog pid cid image_name cmd now),
       Event.waitpid pid status,
       Event.ledgerRewrite ((fs.ledger ++ [mkLog pid cid image_name cmd now]).filter
         (fun line => !(stripNl line == stripNl (mkLog pid cid image_name cmd now))))] ∧
    (run image_name cmd cid now pid status fs).2.ledger.all
      (fun line => !(stripNl line == stripNl (mkLog pid cid image_name cmd now))) = true := by
  constructor
  · rfl
  · exact ledgerAllRemoved (fs.ledger ++ [mkLog pid cid image_name cmd now]) _

/-- C2 (counterexample): in run's trace no ledger append precedes the clone —
the append happens strictly after clone, since the row needs the child PID. -/
theorem claim2_counterexample :
    ¬ ∃ i j : Fin (run "ubu" ["/bin/echo", "hi"] "c1" "t0" 7 0 fsEmpty).1.length,
        i.val < j.val ∧
        isLedgerAppend ((run "ubu" ["/bin/echo", "hi"] "c1" "t0" 7 0 fsEmpty).1.get i) = true ∧
        isClone ((run "ubu" ["/bin/echo", "hi"] "c1" "t0" 7 0 fsEmpty).1.get j) = true := by
  decide

/-- The cgroup setup phases emit only makedirs and file writes. -/
def isMkdirOrWrite : Event → Bool
  | Event.makedirs _ => true
  | Event.writeFile _ _ => true
  | _ => false

theorem cpuAllMW (c : String) (s : Int) (p : Nat) (fs : FS) :
    ((_setup_cpu_cgroup c s p fs).1).all isMkdirOrWrite = true := by
  simp only [_setup_cpu_cgroup]
  split <;> split <;> simp [isMkdirOrWrite]

theorem memAllMW (c : String) (memory memory_swap : Option String) (p : Nat) (fs : FS) :
    ((_setup_memory_cgroup c memory memory_swap p fs).1).all isMkdirOrWrite = true := by
  simp only [_setup_memory_cgroup]
  rcases memory with _ | m <;> rcases memory_swap with _ | w <;> split <;> simp [isMkdirOrWrite]

theorem mwNotOpenExtract (e : Event) (h : isMkdirOrWrite e = true) :
    (isOpenTar e || isExtract e) = false := by
  cases e <;> simp_all [isMkdirOrWrite, isOpenTar, isExtract]

theorem mwNotMount (e : Event) (h : isMkdirOrWrite e = true) : isMount e = false := by
  cases e <;> simp_all [isMkdirOrWrite, isMount]

/-- The state after _setup_cpu_cgroup: unchanged, or with the cpu cgroup dir added. -/
theorem cpuFsShape (c : String) (s : Int) (p : Nat) (fs : FS) :
    (_setup_cpu_cgroup c s p fs).2 = fs ∨
    (_setup_cpu_cgroup c s p fs).2 = fs.addPath (cpuCgroupDir c) := by
  simp only [_setup_cpu_cgroup, cpuCgroupDir]
  split
  · exact Or.inl rfl
  · exact Or.inr rfl

theorem memFsShape (c : String) (memory memory_swap : Option String) (p : Nat) (fs : FS) :
    (_setup_memory_cgroup c memory memory_swap p fs).2 = fs ∨
    (_setup_memory_cgroup c memory memory_swap p fs).2 = fs.addPath (memCgroupDir c) := by
  simp only [_setup_memory_cgroup, memCgroupDir]
  split
  · exact Or.inl rfl
  · exact Or.inr rfl

/-- A path distinct from both cgroup directories stays absent across the two
cgroup setup phases. -/
theorem pathExistsAfterCgroups (c : String) (s : Int) (memory memory_swap : Option String)
    (p : Nat) (fs : FS) (q : String) (h : pathExists fs q = false)
    (hne1 : q ≠ cpuCgroupDir c) (hne2 : q ≠ memCgroupDir c) :
    pathExists ((_setup_memory_cgroup c memory memory_swap p
      ((_setup_cpu_cgroup c s p fs).2)).2) q = false := by
  have h1 : pathExists ((_setup_cpu_cgroup c s p fs).2) q = false := by
    rcases cpuFsShape c s p fs with hA | hA <;> rw [hA]
    · exact h
    · exact pathExistsAddPathNe fs _ q h hne1
  rcases memFsShape c memory memory_swap p ((_setup_cpu_cgroup c s p fs).2) with hB | hB <;>
    rw [hB]
  · exact h1
  · exact pathExistsAddPathNe _ _ q h1 hne2

/-- C8 (amended): when the image tarball is absent, the child's containment
sequence fails at the assert with "unable to locate image <name>", before any
tar open, extraction or container mount — though after the cgroup writes,
sethostname and the MS_PRIVATE|MS_REC remount of / (the only mount in the
trace); the parent meanwhile still appends the ledger row once after clone and
removes it after waitpid, so no row remains afterwards. -/
theorem claim8_missing_image (cmd : List String) (n d c b : String) (s : Int)
    (mem msw : Option String) (u : String) (p status : Nat) (cid now : String) (fs : FS)
    (h : pathExists fs (_get_image_path n d "tar") = false)
    (hne1 : _get_image_path n d "tar" ≠ cpuCgroupDir c)
    (hne2 : _get_image_path n d "tar" ≠ memCgroupDir c) :
    (contain cmd n d c b s mem msw u p fs).2 =
      Except.error (Err.assertionError ("unable to locate image " ++ n)) ∧
    (contain cmd n d c b s mem msw u p fs).1.filter
      (fun e => isOpenTar e || isExtract e) = [] ∧
    (contain cmd n d c b s mem msw u p fs).1.filter isMount = [privateMount] ∧
    (run n cmd cid now p status fs).1.countP isLedgerAppend = 1 ∧
    (run n cmd cid now p status fs).1.countP isClone = 1 ∧
    (run n cmd cid now p status fs).2.ledger.all
      (fun line => !(stripNl line == stripNl (mkLog p cid n cmd now))) = true := by
  have hfs2 := pathExistsAfterCgroups c s mem msw p fs _ h hne1 hne2
  have hccr : create_container_root n d c b
      ((_setup_memory_cgroup c mem msw p ((_setup_cpu_cgroup c s p fs).2)).2) =
      ([], Except.error (Err.assertionError ("unable to locate image " ++ n))) := by
    simp only [create_container_root]
    rw [if_pos hfs2]
  have hA := cpuAllMW c s p fs
  have hB := memAllMW c mem msw p ((_setup_cpu_cgroup c s p fs).2)
  refine ⟨?_, ?_, ?_, ?_, ?_, ?_⟩
  · simp only [contain, hccr]
  · simp only [contain, hccr]
    have hfA : (_setup_cpu_cgroup c s p fs).1.filter (fun e => isOpenTar e || isExtract e) = [] :=
      filterOfAll isMkdirOrWrite _ _ hA mwNotOpenExtract
    have hfB : ((_setup_memory_cgroup c mem msw p ((_setup_cpu_cgroup c s p fs).2)).1).filter
        (fun e => isOpenTar e || isExtract e) = [] :=
      filterOfAll isMkdirOrWrite _ _ hB mwNotOpenExtract
    simp only [List.filter_append, List.append_nil, hfA, hfB]
    simp [isOpenTar, isExtract, privateMount]
  · simp only [contain, hccr]
    simp [List.filter_append,
      filterOfAll isMkdirOrWrite isMount _ hA mwNotMount,
      filterOfAll isMkdirOrWrite isMount _ hB mwNotMount,
      isMount, privateMount]
  · simp [run, List.countP_cons, isLedgerAppend]
  · simp [run, List.countP_cons, isClone]
  · exact ledgerAllRemoved (fs.ledger ++ [mkLog p cid n cmd now]) _

/-- C8 (counterexample): with the tarball absent, the claim that the launch
fails "before any mount" and that "no ledger row is written" is false: the
child's trace contains a mount (the / remount) and the parent's trace contains
a ledger append. -/
theorem claim8_counterexample :
    ¬ (((contain ["/bin/true"] "does-not-exist" "." "c1" "./build/containers"
          0 none none "" 42 fsEmpty).1.all (fun e => !isMount e) = true) ∧
       ((run "does-not-exist" ["/bin/true"] "c1" "t0" 42 256 fsEmpty).1.all
          (fun e => !isLedgerAppend e) = true)) := by
  decide

/-- Witness for C8 (amended) at a concrete state. -/
theorem claim8_witness :
    (contain ["/bin/true"] "does-not-exist" "." "c1" "./build/containers"
        0 none none "" 42 fsEmpty).2 =
      Except.error (Err.assertionError ("unable to locate image " ++ "does-not-exist")) :=
  (claim8_missing_image ["/bin/true"] "does-not-exist" "." "c1" "./build/containers"
    0 none none "" 42 256 "c1" "t0" fsEmpty (by decide) (by decide) (by decide)).1

theorem cmNoPriv (nr : String) (fs : FS) :
    (_create_mounts nr fs).1.filter isPrivDrop = [] := by
  rw [cmShape]
  split <;>
    simp [List.filter_append, makedevFilterPriv, isPrivDrop, procMount, sysMount,
      tmpMount, devptsMount]

theorem ccrNoPriv (n d c b : String) (fs : FS) :
    (create_container_root n d c b fs).1.filter isPrivDrop = [] := by
  rcases hc : create_container_root n d c b fs with ⟨t, r⟩
  rcases r with e | ⟨nrv, fs2⟩
  · dsimp only
    exact filterOfAll benign isPrivDrop t (ccrErrAllBenign n d c b fs t e hc) benignNotPriv
  · dsimp only
    obtain ⟨hnr, pre, ht, hben⟩ := ccrOkShape n d c b fs t nrv fs2 hc
    rw [ht]
    simp [List.filter_append, filterOfAll benign isPrivDrop pre hben benignNotPriv,
      isPrivDrop, overlayMountEv]

/-- With an empty user string no setgid/setuid event ever appears in the
containment trace, on any path through contain. -/
theorem containPrivEmptyUser (cmd : List String) (n d c b : String) (s : Int)
    (mem msw : Option String) (p : Nat) (fs : FS) :
    (contain cmd n d c b s mem msw "" p fs).1.filter isPrivDrop = [] := by
  have hpA : (_setup_cpu_cgroup c s p fs).1.filter isPrivDrop = [] :=
    filterOfAll benign isPrivDrop _ (cpuAllBenign c s p fs) benignNotPriv
  have hpB : ((_setup_memory_cgroup c mem msw p ((_setup_cpu_cgroup c s p fs).2)).1).filter
      isPrivDrop = [] :=
    filterOfAll benign isPrivDrop _ (memAllBenign c mem msw p _) benignNotPriv
  rcases hccr : create_container_root n d c b
      ((_setup_memory_cgroup c mem msw p ((_setup_cpu_cgroup c s p fs).2)).2) with ⟨evE, rE⟩
  have hpE : evE.filter isPrivDrop = [] := by
    have hx := ccrNoPriv n d c b ((_setup_memory_cgroup c mem msw p ((_setup_cpu_cgroup c s p fs).2)).2)
    rw [hccr] at hx
    exact hx
  rcases rE with e | ⟨nrv, fs3⟩
  · simp only [contain, hccr]
    simp [List.filter_append, hpA, hpB, hpE, isPrivDrop, privateMount]
  · simp only [contain, hccr]
    have hpF : (_create_mounts nrv fs3).1.filter isPrivDrop = [] := cmNoPriv nrv fs3
    by_cases hold : pathExists ((_create_mounts nrv fs3).2) (osPathJoin nrv ["old_root"]) = true
    · rw [if_pos hold]
      dsimp only
      simp [List.filter_append, hpA, hpB, hpE, hpF, isPrivDrop, privateMount]
    · rw [if_neg hold]
      rcases cmd with _ | ⟨hd, tl⟩ <;>
        simp [userSeq, List.filter_append, hpA, hpB, hpE, hpF, isPrivDrop, privateMount]

/-- A non-empty user that userSeq accepts always produces exactly the pair
setgid-then-setuid. -/
theorem userSeqNeOk (u : String) (evU : List Event) (x : Unit) (hu : u ≠ "")
    (h : userSeq u = (evU, Except.ok x)) :
    ∃ g uu : Int, evU = [Event.setgid g, Event.setuid uu] := by
  simp only [userSeq] at h
  rw [if_neg hu] at h
  rcases hsplit : strSplitOnChar (if u.data.contains ':' = false then u ++ ":0" else u) ':'
    with _ | ⟨uid, rest⟩
  · rw [hsplit] at h
    exact absurd h (by simp)
  · rcases rest with _ | ⟨gid, rest2⟩
    · rw [hsplit] at h
      exact absurd h (by simp)
    · rcases rest2 with _ | ⟨z, rest3⟩
      · rw [hsplit] at h
        simp only at h
        rcases hg : pyInt gid with _ | g
        · rw [hg] at h
          exact absurd h (by simp)
        · rw [hg] at h
          simp only at h
          by_cases hg1 : g < -1
          · rw [if_pos hg1] at h
            exact absurd h (by simp)
          · rw [if_neg hg1] at h
            by_cases hgL : LONG_MAX < g
            · rw [if_pos hgL] at h
              exact absurd h (by simp)
            · rw [if_neg hgL] at h
              by_cases hg2 : ID_T_MAX < g
              · rw [if_pos hg2] at h
                exact absurd h (by simp)
              · rw [if_neg hg2] at h
                rcases hu2 : pyInt uid with _ | uu
                · rw [hu2] at h
                  exact absurd h (by simp)
                · rw [hu2] at h
                  simp only at h
                  by_cases hu3 : uu < -1
                  · rw [if_pos hu3] at h
                    exact absurd h (by simp)
                  · rw [if_neg hu3] at h
                    by_cases huL : LONG_MAX < uu
                    · rw [if_pos huL] at h
                      exact absurd h (by simp)
                    · rw [if_neg huL] at h
                      by_cases hu4 : ID_T_MAX < uu
                      · rw [if_pos hu4] at h
                        exact absurd h (by simp)
                      · rw [if_neg hu4] at h
                        injection h with h1 h2
                        exact ⟨g, uu, h1.symm⟩
      · rw [hsplit] at h
        exact absurd h (by simp)

/-- The user block on a non-empty user with exactly two colon-separated
components, written out: gid parse, gid range check, setgid, uid parse, uid
range check, setuid. -/
theorem userSeqTwoParts (u us gs : String) (hu : u ≠ "")
    (hsplit : strSplitOnChar (if u.data.contains ':' = false then u ++ ":0" else u) ':'
      = [us, gs]) :
    userSeq u =
      (match pyInt gs with
       | none => ([], Except.error (Err.valueError "invalid literal for int() with base 10"))
       | some g =>
         if g < -1 then ([], Except.error (Err.overflowError "gid is less than minimum"))
         else if LONG_MAX < g then
           ([], Except.error (Err.overflowError "gid is greater than maximum"))
         else if ID_T_MAX < g then
           ([], Except.error (Err.overflowError "gid is less than minimum"))
         else
           match pyInt us with
           | none => ([Event.setgid g],
               Except.error (Err.valueError "invalid literal for int() with base 10"))
           | some v =>
             if v < -1 then
               ([Event.setgid g], Except.error (Err.overflowError "uid is less than minimum"))
             else if LONG_MAX < v then
               ([Event.setgid g], Except.error (Err.overflowError "uid is greater than maximum"))
             else if ID_T_MAX < v then
               ([Event.setgid g], Except.error (Err.overflowError "uid is less than minimum"))
             else ([Event.setgid g, Event.setuid v], Except.ok ())) := by
  simp only [userSeq]
  rw [if_neg hu, hsplit]

/-- C6 (amended): an empty user performs no privilege drop; on a successful
run with a non-empty user the trace's privilege-drop events are exactly
setgid(gid) followed by setuid(uid) as produced by userSeq; and with the
defaulted-or-given two colon-separated components: an int() parse failure
raises the invalid-user ValueError (int() accepts optionally signed decimals,
so a negative id is NOT a parse failure), a parsed in-range gid is applied by
setgid before the uid is even parsed, both ids in the converter's range
[-1, ID_T_MAX] lead to setgid then setuid, and a parsed uid below -1 aborts
with the converter's OverflowError — not the invalid-user error — after
setgid has already been applied (see the counterexample). -/
theorem claim6_user_parse (cmd : List String) (n d c b : String) (s : Int)
    (mem msw : Option String) (u : String) (p : Nat) (fs : FS) :
    (u = "" → (contain cmd n d c b s mem msw u p fs).1.filter isPrivDrop = []) ∧
    (exceptOk (contain cmd n d c b s mem msw u p fs).2 = true → u ≠ "" →
      ∃ g uu : Int,
        (contain cmd n d c b s mem msw u p fs).1.filter isPrivDrop =
          [Event.setgid g, Event.setuid uu] ∧
        userSeq u = ([Event.setgid g, Event.setuid uu], Except.ok ())) ∧
    (∀ us gs : String, u ≠ "" →
      strSplitOnChar (if u.data.contains ':' = false then u ++ ":0" else u) ':' = [us, gs] →
      ((pyInt gs = none →
          userSeq u = ([], Except.error (Err.valueError "invalid literal for int() with base 10"))) ∧
       (∀ g : Int, pyInt gs = some g → -1 ≤ g → g ≤ ID_T_MAX → pyInt us = none →
          userSeq u = ([Event.setgid g],
            Except.error (Err.valueError "invalid literal for int() with base 10"))) ∧
       (∀ g uu : Int, pyInt gs = some g → -1 ≤ g → g ≤ ID_T_MAX →
          pyInt us = some uu → -1 ≤ uu → uu ≤ ID_T_MAX →
          userSeq u = ([Event.setgid g, Event.setuid uu], Except.ok ())) ∧
       (∀ g uu : Int, pyInt gs = some g → -1 ≤ g → g ≤ ID_T_MAX →
          pyInt us = some uu → uu < -1 →
          userSeq u = ([Event.setgid g],
            Except.error (Err.overflowError "uid is less than minimum"))))) := by
  refine ⟨?_, ?_, ?_⟩
  · intro hu
    subst hu
    exact containPrivEmptyUser cmd n d c b s mem msw p fs
  · intro hok hu
    rcases hc : contain cmd n d c b s mem msw u p fs with ⟨tr, r⟩
    rw [hc] at hok
    rcases r with e | fsF
    · exact absurd hok (by simp [exceptOk])
    · obtain ⟨preA, preE, dseg, evU, hd, tl, hcmd, hAben, hEben, hcpu, hmem, hdseg, hus, htr⟩ :=
        containOkShape cmd n d c b s mem msw u p fs tr fsF hc
      obtain ⟨g, uu, hUg⟩ := userSeqNeOk u evU () hu hus
      refine ⟨g, uu, ?_, ?_⟩
      · dsimp only
        rw [htr, hUg]
        have hpA : preA.filter isPrivDrop = [] :=
          filterOfAll benign isPrivDrop preA hAben benignNotPriv
        have hpE : preE.filter isPrivDrop = [] :=
          filterOfAll benign isPrivDrop preE hEben benignNotPriv
        have hpV : (makedev (osPathJoin (_get_container_path c b ["rootfs"]) ["dev"])).filter
            isPrivDrop = [] := makedevFilterPriv _
        rcases hdseg with h0 | h0 <;>
          rw [h0] <;>
          simp [List.filter_append, hpA, hpE, hpV, isPrivDrop, privateMount, overlayMountEv,
            procMount, sysMount, tmpMount, devptsMount]
      · rw [hUg] at hus
        exact hus
  · intro us gs hu hsplit
    refine ⟨?_, ?_, ?_, ?_⟩
    · intro hgnone
      rw [userSeqTwoParts u us gs hu hsplit, hgnone]
    · intro g hg hge hgle hunone
      rw [userSeqTwoParts u us gs hu hsplit, hg]
      dsimp only
      rw [if_neg (not_lt.mpr hge),
        if_neg (not_lt.mpr (le_trans hgle (by decide : ID_T_MAX ≤ LONG_MAX))),
        if_neg (not_lt.mpr hgle), hunone]
    · intro g uu hg hge hgle hus hue hule
      rw [userSeqTwoParts u us gs hu hsplit, hg]
      dsimp only
      rw [if_neg (not_lt.mpr hge),
        if_neg (not_lt.mpr (le_trans hgle (by decide : ID_T_MAX ≤ LONG_MAX))),
        if_neg (not_lt.mpr hgle), hus]
      dsimp only
      rw [if_neg (not_lt.mpr hue),
        if_neg (not_lt.mpr (le_trans hule (by decide : ID_T_MAX ≤ LONG_MAX))),
        if_neg (not_lt.mpr hule)]
    · intro g uu hg hge hgle hus huneg
      rw [userSeqTwoParts u us gs hu hsplit, hg]
      dsimp only
      rw [if_neg (not_lt.mpr hge),
        if_neg (not_lt.mpr (le_trans hgle (by decide : ID_T_MAX ≤ LONG_MAX))),
        if_neg (not_lt.mpr hgle), hus]
      dsimp only
      rw [if_pos huneg]

/-- C6 (counterexample): the user string "-5" defaults its GID to "0" and both
components parse under int() (sign accepted), so the invalid-user ValueError
is never raised although -5 is not a non-negative integer; the sequence does
fail, but with CPython's uid-converter OverflowError — a different, uncaught
error — and only after setgid(0) has already been applied. -/
theorem claim6_counterexample :
    pyInt "-5" = some (-5) ∧
    exceptErr (contain ["/bin/sh"] "ubu" "/img" "c1" "/ct" 0 none none "-5" 42 fsOk).2 =
      some (Err.overflowError "uid is less than minimum") ∧
    exceptErr (contain ["/bin/sh"] "ubu" "/img" "c1" "/ct" 0 none none "-5" 42 fsOk).2 ≠
      some (Err.valueError "invalid literal for int() with base 10") ∧
    (contain ["/bin/sh"] "ubu" "/img" "c1" "/ct" 0 none none "-5" 42 fsOk).1.filter isPrivDrop =
      [Event.setgid 0] := by
  decide

/-- Witness for C6 (amended) at a concrete accepted user. -/
theorem claim6_witness :
    ∃ g uu : Int,
      (contain ["/bin/sh"] "ubu" "/img" "c1" "/ct" 0 none none "1000:4" 42 fsOk).1.filter
          isPrivDrop = [Event.setgid g, Event.setuid uu] ∧
      userSeq "1000:4" = ([Event.setgid g, Event.setuid uu], Except.ok ()) :=
  (claim6_user_parse ["/bin/sh"] "ubu" "/img" "c1" "/ct" 0 none none "1000:4" 42 fsOk).2.1
    (by decide) (by decide)

/-- Witness for C3 at a concrete successful run. -/
theorem claim3_witness :
    Event.writeFile (osPathJoin (cpuCgroupDir "c1") ["tasks"]) (toString 42)
      ∈ (contain ["/bin/sh"] "ubu" "/img" "c1" "/ct" 512 (some "100") none "1000:1000"
          42 fsOk).1.takeWhile (fun e => !isPivot e) :=
  (claim3_contain_order ["/bin/sh"] "ubu" "/img" "c1" "/ct" 512 (some "100") none "1000:1000"
    42 fsOk (by decide)).1
